import Mathlib

/-!
Shallow embedding of the benthos stage-execution slice under verification:
the Redis processor (`lib/processor/redis.go`) — its constructor, the
scard/sadd operators with their bounded-retry envelope, `ProcessMessage`,
`CloseAsync` and `WaitForClose` — together with the output type registry
(`output/constructor.go`).

External collaborators (the go-redis client, `time.ParseDuration`, the
bloblang field-expression compiler) are represented as explicit oracle
parameters: a remote call's outcome is a function of the attempt index, so
that flaky remote behaviour is a plain function of the embedding.

The batch/part model (`types.Message`, `Copy`, `Part.Set`) and the
per-part iteration primitive (`IteratePartsWithSpan`) are repository code
that is not part of the provided source slice; following the spec they are
modelled as an arena of parts with handle lists per message (structural
sharing for copy-on-write duplication) and a sequential per-part fold that
records failures per part without aborting the batch.
-/

namespace Benthos

/-! ## Batch and part model -/

/-- Opaque byte payloads are modelled as strings. -/
abbrev Bytes := String

/-- Modelled from the spec: a Part is an opaque payload plus per-part
error recording ("recorded against that part (e.g. as part metadata or an
error flag)", §4.2); the error recording is modelled as a boolean flag. -/
structure Part where
  payload : Bytes
  failed : Bool
deriving DecidableEq, Repr

instance : Inhabited Part := ⟨⟨"", false⟩⟩

/-- Modelled from the spec: the arena of parts (§9 "an arena of parts plus
a lightweight handle list per batch"); slots are addressed by index and
only ever appended to, so unmodified parts stay shared between batches. -/
structure Arena where
  slots : List Part
deriving DecidableEq, Repr

/-- Modelled from the spec: a message (batch) is an ordered handle list
into the part arena (§9 "index-based structural sharing"). -/
structure Msg where
  handles : List Nat
deriving DecidableEq, Repr

/-- Reads part `i` of message `m` through the arena; `none` when the part
index or the handle is out of range. -/
def readPart (a : Arena) (m : Msg) (i : Nat) : Option Part :=
  match m.handles[i]? with
  | some h => a.slots[h]?
  | none => none

/-- Well-formedness: every handle of the message points at an allocated
arena slot. -/
def MsgWF (a : Arena) (m : Msg) : Prop :=
  ∀ h ∈ m.handles, h < a.slots.length

/-- Modelled from the spec: `duplicate(batch)` (§4.1) — the duplicate is a
fresh handle list sharing every unmodified part slot with the original. -/
def duplicate (m : Msg) : Msg :=
  ⟨m.handles⟩

/-- Modelled from the spec: `set_payload`-style mutation of one part of a
batch (§4.1, §9): the touched part is copied into a fresh arena slot and
only the mutating batch's handle is redirected, so batches sharing the old
slot are unaffected. -/
def setPart (a : Arena) (m : Msg) (i : Nat) (p : Part) : Arena × Msg :=
  (⟨a.slots ++ [p]⟩, ⟨m.handles.set i a.slots.length⟩)

/-- Modelled from the spec: recording a per-part failure (§4.2 "recorded
against that part") — sets the part's error flag, leaving the payload
untouched. -/
def flagPart (a : Arena) (m : Msg) (i : Nat) : Arena × Msg :=
  match readPart a m i with
  | some p => setPart a m i { p with failed := true }
  | none => (a, m)

/-- Materialises a message's parts for consumers that read the whole
batch (the key field expression is evaluated against the message). -/
def materialize (a : Arena) (m : Msg) : List Part :=
  m.handles.map fun h => a.slots.getD h default

/-! ## Redis client oracle and processor state -/

/-- The go-redis `UniversalClient` collaborator, as an oracle: each remote
command's outcome is a function of the attempt index (how many times this
invocation has called it before), so that transiently failing remotes are
expressible. `closed` models whether `Close()` has been called. -/
structure RedisClient where
  scard : String → Nat → Except String Int
  sadd : String → Bytes → Nat → Except String Int
  closed : Bool

/-- `Close` on the client resource (go-redis `client.Close()`). -/
def RedisClient.close (c : RedisClient) : RedisClient :=
  { c with closed := true }

/-- The closed set of operator variants of the Redis processor, resolved
once at construction from the configured operator name. -/
inductive RedisOp
  | scard
  | sadd
deriving DecidableEq, Repr

/-- The compiled bloblang key field expression (`bloblang.NewField`): maps
a part index and the current message contents to the key string. -/
abbrev FieldExpr := Nat → List Part → String

/-- Embeds the `Redis` processor struct of `lib/processor/redis.go`
(fields not needed by any claim — loggers, the remaining metric handles —
are carried by the results of the operations instead). -/
structure Redis where
  parts : List Int
  retries : Int
  retryPeriod : Nat
  keyExpr : FieldExpr
  operator : RedisOp
  client : RedisClient

/-- Embeds `RedisConfig` of `lib/processor/redis.go` (the embedded
`bredis.Config` collaborator is represented by the client oracle the
environment supplies at construction). -/
structure RedisConfig where
  parts : List Int
  operator : String
  key : String
  retries : Int
  retryPeriod : String

/-- Embeds `NewRedisConfig`: the documented defaults. -/
def NewRedisConfig : RedisConfig :=
  { parts := [], operator := "scard", key := "", retries := 3, retryPeriod := "500ms" }

/-- The external collaborators consumed by `NewRedis`: Go's
`time.ParseDuration`, `conf.Redis.Config.Client()` and
`bloblang.NewField`, each as an oracle. -/
structure RedisEnv where
  parseDuration : String → Except String Nat
  client : Except String RedisClient
  newField : String → Except String FieldExpr

/-- Embeds `getRedisOperator` of `lib/processor/redis.go`: "sadd" and
"scard" resolve to their operators, anything else is a construction-time
error. -/
def getRedisOperator (opStr : String) : Except String RedisOp :=
  if opStr = "sadd" then Except.ok RedisOp.sadd
  else if opStr = "scard" then Except.ok RedisOp.scard
  else Except.error ("operator not recognised: " ++ opStr)

/-- Embeds `NewRedis` of `lib/processor/redis.go`: parse the retry period
only when the configured string is non-empty (otherwise the zero
duration), then build the client, compile the key expression, and resolve
the operator name; the first failing step aborts construction with its
error. -/
def NewRedis (env : RedisEnv) (conf : RedisConfig) : Except String Redis :=
  match (if 0 < conf.retryPeriod.length then
          match env.parseDuration conf.retryPeriod with
          | Except.error e => Except.error ("failed to parse retry period string: " ++ e)
          | Except.ok d => Except.ok d
         else Except.ok 0) with
  | Except.error e => Except.error e
  | Except.ok retryPeriod =>
    match env.client with
    | Except.error e => Except.error e
    | Except.ok client =>
      match env.newField conf.key with
      | Except.error e => Except.error ("failed to parse key expression: " ++ e)
      | Except.ok keyExpr =>
        match getRedisOperator conf.operator with
        | Except.error e => Except.error e
        | Except.ok operator =>
          Except.ok { parts := conf.parts, retries := conf.retries,
                      retryPeriod := retryPeriod, keyExpr := keyExpr,
                      operator := operator, client := client }

/-! ## The retry envelope and the operators -/

/-- Embeds the retry loop body shared verbatim by `newRedisSCardOperator`
and `newRedisSAddOperator` (`for i := 0; i <= r.conf.Redis.Retries && err
!= nil; i++ { log; sleep retryPeriod; mRedisRetry.Incr(1); retry }`):
`cur` is the outcome of the latest attempt, `next` the index of the next
attempt, and `fuel` the number of loop iterations the counter `i` still
admits. Returns the final outcome and the number of retry-counter
increments (one per loop iteration). The fixed `retry_period` sleep
between attempts is real time and is elided. -/
def redisRetryAux (attempt : Nat → Except String Int) :
    Except String Int → Nat → Nat → Except String Int × Nat
  | cur, _, 0 => (cur, 0)
  | cur, next, fuel + 1 =>
    match cur with
    | Except.ok v => (Except.ok v, 0)
    | Except.error _ =>
      let rest := redisRetryAux attempt (attempt next) (next + 1) fuel
      (rest.1, rest.2 + 1)

/-- The full retry envelope: a first attempt before the loop, then the
loop, whose counter `i` ranges over `0 ≤ i ≤ retries` — admitting
`retries + 1` further attempts (`(retries + 1).toNat` handles a negative
configured Go `int`, for which the loop condition is false at once). -/
def redisRetryLoop (attempt : Nat → Except String Int) (retries : Int) :
    Except String Int × Nat :=
  redisRetryAux attempt (attempt 0) 1 (retries + 1).toNat

/-- Embeds `strconv.AppendInt(nil, res, 10)`: the decimal encoding of the
64-bit integer result. -/
def strconvAppendInt (res : Int) : Bytes :=
  toString res

/-- Embeds `newRedisSCardOperator`: run `SCard(key)` under the retry
envelope and encode a successful count in decimal; returns the resulting
bytes-or-error and the number of `redis.retry` increments. The `value`
argument is ignored, as in the source. -/
def newRedisSCardOperator (r : Redis) (key : String) (value : Bytes) :
    Except String Bytes × Nat :=
  let res := redisRetryLoop (fun i => r.client.scard key i) r.retries
  match res.1 with
  | Except.error e => (Except.error e, res.2)
  | Except.ok v => (Except.ok (strconvAppendInt v), res.2)

/-- Embeds `newRedisSAddOperator`: run `SAdd(key, value)` under the retry
envelope and encode a successful count in decimal. -/
def newRedisSAddOperator (r : Redis) (key : String) (value : Bytes) :
    Except String Bytes × Nat :=
  let res := redisRetryLoop (fun i => r.client.sadd key value i) r.retries
  match res.1 with
  | Except.error e => (Except.error e, res.2)
  | Except.ok v => (Except.ok (strconvAppendInt v), res.2)

/-- Dispatch on the operator variant resolved at construction
(`r.operator(r, key, value)` in the source). -/
def applyRedisOperator (r : Redis) (key : String) (value : Bytes) :
    Except String Bytes × Nat :=
  match r.operator with
  | RedisOp.scard => newRedisSCardOperator r key value
  | RedisOp.sadd => newRedisSAddOperator r key value

/-! ## ProcessMessage -/

/-- The mutable state threaded through the per-part iteration: the part
arena, the working copy of the message, and the increments applied so far
to the `error` and `redis.retry` counters. -/
structure ProcState where
  arena : Arena
  msg : Msg
  errIncr : Nat
  retryIncr : Nat

/-- Embeds the `proc` closure of `Redis.ProcessMessage`: evaluate the key
expression against the working message, run the resolved operator on the
part's payload; on error increment the `error` counter and report the
error (the part is left for the iterator to flag), on success substitute
the result bytes for the part's payload. -/
def redisProc (r : Redis) (i : Nat) (s : ProcState) : ProcState × Option String :=
  match readPart s.arena s.msg i with
  | none => (s, none)
  | some part =>
    match applyRedisOperator r (r.keyExpr i (materialize s.arena s.msg)) part.payload with
    | (Except.error e, n) =>
      ({ s with errIncr := s.errIncr + 1, retryIncr := s.retryIncr + n }, some e)
    | (Except.ok bytes, n) =>
      match setPart s.arena s.msg i { part with payload := bytes } with
      | (a2, m2) =>
        ({ s with arena := a2, msg := m2, retryIncr := s.retryIncr + n }, none)

/-- Modelled from the spec: the per-part loop of `IteratePartsWithSpan`
(§4.2), which is repository code outside the provided slice — visit each
targeted index in turn inside a tracing span (spans are elided), record a
failure against the failing part, and never abort the remaining parts. -/
def iterateParts (step : Nat → ProcState → ProcState × Option String) :
    List Nat → ProcState → ProcState
  | [], s => s
  | i :: rest, s =>
    match step i s with
    | (s1, none) => iterateParts step rest s1
    | (s1, some _) =>
      match flagPart s1.arena s1.msg i with
      | (a2, m2) => iterateParts step rest { s1 with arena := a2, msg := m2 }

/-- Modelled from the spec: target-index selection of
`IteratePartsWithSpan` (§4.2) — an empty selector targets every part of
the batch, and out-of-range configured indices are ignored. -/
def targetIndices (parts : List Int) (n : Nat) : List Nat :=
  if parts.isEmpty then List.range n
  else parts.filterMap fun i =>
    if 0 ≤ i ∧ i < (n : Int) then some i.toNat else none

/-- What one `ProcessMessage` call returns and does: the grown arena, the
messages handed downstream, the response, and the increments of the
`count`, `error`, `sent`, `batch.sent` and `redis.retry` counters. -/
structure ProcessResult where
  arena : Arena
  sent : List Msg
  response : Option String
  countIncr : Nat
  errIncr : Nat
  sentIncr : Nat
  batchSentIncr : Nat
  retryIncr : Nat

/-- Embeds `Redis.ProcessMessage`: increment `count`, copy the input
message, iterate the operator over the targeted parts of the copy, then
increment `batch.sent` and `sent` and return the single result message
with a nil response. -/
def Redis.ProcessMessage (r : Redis) (a : Arena) (msg : Msg) : ProcessResult :=
  let newMsg := duplicate msg
  let s := iterateParts (redisProc r)
    (targetIndices r.parts newMsg.handles.length) ⟨a, newMsg, 0, 0⟩
  { arena := s.arena, sent := [s.msg], response := none,
    countIncr := 1, errIncr := s.errIncr,
    sentIncr := s.msg.handles.length, batchSentIncr := 1,
    retryIncr := s.retryIncr }

/-! ## Lifecycle -/

/-- Embeds `Redis.CloseAsync`: the body is empty, so it is the identity on
the processor — no close signal is recorded anywhere. -/
def Redis.CloseAsync (r : Redis) : Redis :=
  r

/-- Embeds `Redis.WaitForClose`: close the client resource and return nil;
the timeout argument is never consulted. -/
def Redis.WaitForClose (r : Redis) (timeout : Nat) : Redis × Option String :=
  ({ r with client := r.client.close }, none)

/-! ## Output type registry -/

/-- Modelled from the spec: `types.ErrInvalidOutputType`, the sentinel
error (outside the provided slice) returned for a type name absent from
the output constructors registry. -/
def ErrInvalidOutputType : String :=
  "invalid output type"

/-- Embeds the output `Config` struct of `output/constructor.go`: the type
discriminator plus the per-kind nested configuration (the ZMQ4 record is
declared elsewhere and is opaque here). -/
structure OutputConfig where
  type : String
  zmq4 : Option String

/-- Embeds `Construct` of `output/constructor.go` over an explicit
registry (the package-level `constructors` map, modelled as an
association list): a registered type name is built by its constructor on
the supplied configuration, anything else fails with the invalid-output
sentinel. The stage type is a parameter, as `Type` is opaque here. -/
def Construct {α : Type} (constructors : List (String × (OutputConfig → Except String α)))
    (conf : OutputConfig) : Except String α :=
  match constructors.lookup conf.type with
  | some c => c conf
  | none => Except.error ErrInvalidOutputType

/-! ## Concrete clients and processors for witnesses and counterexamples -/

/-- A remote whose every command fails, with an error message naming the
attempt index, so a returned error identifies which attempt produced it. -/
def failingClient : RedisClient :=
  { scard := fun _ i => Except.error ("fail attempt " ++ toString i),
    sadd := fun _ _ i => Except.error ("fail attempt " ++ toString i),
    closed := false }

/-- A healthy remote: set "s1" has 4 members, and adds report 1. -/
def okClient : RedisClient :=
  { scard := fun _ _ => Except.ok 4,
    sadd := fun _ _ _ => Except.ok 1,
    closed := false }

/-- A remote that fails exactly on the first attempt of each invocation
and then succeeds. -/
def flakyClient : RedisClient :=
  { scard := fun _ i => if i = 0 then Except.error "transient" else Except.ok 7,
    sadd := fun _ _ i => if i = 0 then Except.error "transient" else Except.ok 1,
    closed := false }

/-- A processor with the given retry budget and client, the default empty
parts selector, a constant key expression and the scard operator. -/
def mkRedis (retries : Int) (client : RedisClient) : Redis :=
  { parts := [], retries := retries, retryPeriod := 0,
    keyExpr := fun _ _ => "s1", operator := RedisOp.scard, client := client }


/-! ## Arena extension and per-part outcome predicates -/

/-- Arena `a2` extends arena `a`: processing only ever appends part
slots, never overwrites one. -/
def Arena.Ext (a a2 : Arena) : Prop :=
  ∃ t, a2.slots = a.slots ++ t

/-- The observable outcome of running the per-part loop over targets `L`
from state `s`, landing in state `t`: some subset `failed` of the targets
failed; the `error` counter grew by exactly one per failed target; the
batch shape is preserved and untargeted parts are untouched; every failed
target keeps its original payload and is error-flagged, with its operator
invocation (at the key evaluated for it) having returned an error; every
successful target carries the bytes its operator invocation returned. -/
def IterOutcome (r : Redis) (s : ProcState) (L : List Nat) (t : ProcState) : Prop :=
  ∃ failed : List Nat,
    (∀ i ∈ failed, i ∈ L) ∧ failed.Nodup ∧
    t.errIncr = s.errIncr + failed.length ∧
    t.msg.handles.length = s.msg.handles.length ∧
    MsgWF t.arena t.msg ∧
    s.arena.Ext t.arena ∧
    (∀ j, j ∉ L → readPart t.arena t.msg j = readPart s.arena s.msg j) ∧
    (∀ i ∈ L, ∃ p, readPart s.arena s.msg i = some p ∧
      (i ∈ failed →
        (∃ key e n, applyRedisOperator r key p.payload = (Except.error e, n)) ∧
        readPart t.arena t.msg i = some { p with failed := true }) ∧
      (i ∉ failed →
        ∃ key v n, applyRedisOperator r key p.payload = (Except.ok v, n) ∧
          readPart t.arena t.msg i = some { p with payload := v }))

/-- What one `ProcessMessage` call guarantees with the default all-parts
selector: exactly one output message and a nil response; counters
`count` and `batch.sent` each incremented once and `sent` by the part
count; a set of failed part indices such that the `error` counter grew by
exactly one per failed part, each failed part keeps its original payload
(error-flagged) while every other part was processed to its operator's
result bytes. -/
def ProcessIsolation (r : Redis) (a : Arena) (m : Msg) : Prop :=
  ∃ (out : Msg) (failed : List Nat),
    (Redis.ProcessMessage r a m).sent = [out] ∧
    (Redis.ProcessMessage r a m).response = none ∧
    (Redis.ProcessMessage r a m).countIncr = 1 ∧
    (Redis.ProcessMessage r a m).batchSentIncr = 1 ∧
    out.handles.length = m.handles.length ∧
    (Redis.ProcessMessage r a m).sentIncr = m.handles.length ∧
    (∀ i ∈ failed, i < m.handles.length) ∧ failed.Nodup ∧
    (Redis.ProcessMessage r a m).errIncr = failed.length ∧
    ∀ i < m.handles.length, ∃ p, readPart a m i = some p ∧
      (i ∈ failed →
        (∃ key e n, applyRedisOperator r key p.payload = (Except.error e, n)) ∧
        readPart (Redis.ProcessMessage r a m).arena out i =
          some { p with failed := true }) ∧
      (i ∉ failed →
        ∃ key v n, applyRedisOperator r key p.payload = (Except.ok v, n) ∧
          readPart (Redis.ProcessMessage r a m).arena out i =
            some { p with payload := v })

/-! ## Concrete fixtures for construction, registry and batch claims -/

/-- A construction environment whose oracles all succeed. -/
def envW : RedisEnv :=
  { parseDuration := fun _ => Except.ok 500,
    client := Except.ok okClient,
    newField := fun _ => Except.ok (fun _ _ => "s1") }

/-- The default configuration with an unrecognised operator name. -/
def confBadOp : RedisConfig :=
  { parts := [], operator := "hget", key := "", retries := 3, retryPeriod := "" }

/-- The processor `NewRedis` builds from the default configuration in
`envW`. -/
def redisDefaultW : Redis :=
  { parts := [], retries := 3, retryPeriod := 500,
    keyExpr := fun _ _ => "s1", operator := RedisOp.scard, client := okClient }

/-- The default configuration with an empty retry period string. -/
def confEmptyPeriod : RedisConfig :=
  { parts := [], operator := "scard", key := "", retries := 3, retryPeriod := "" }

/-- The default configuration with an unparsable retry period string. -/
def confBadPeriod : RedisConfig :=
  { parts := [], operator := "scard", key := "", retries := 3, retryPeriod := "10 parsecs" }

/-- `envW` with a duration parser that rejects its input. -/
def envBadParse : RedisEnv :=
  { envW with parseDuration := fun _ => Except.error "unknown unit" }

/-- A registered output constructor standing in for the stdout output. -/
def stdoutConstructor : OutputConfig → Except String Nat :=
  fun _ => Except.ok 7

/-- A one-entry output constructors registry. -/
def outputRegistry : List (String × (OutputConfig → Except String Nat)) :=
  [("stdout", stdoutConstructor)]

/-- A configuration selecting the registered type name. -/
def confStdout : OutputConfig :=
  { type := "stdout", zmq4 := none }

/-- A configuration selecting an unregistered type name. -/
def confKafka : OutputConfig :=
  { type := "kafka", zmq4 := none }

/-- A two-part arena fixture. -/
def arenaW : Arena :=
  ⟨[⟨"p0", false⟩, ⟨"p1", false⟩]⟩

/-- A two-part message over `arenaW`. -/
def msgW : Msg :=
  ⟨[0, 1]⟩

/-! ## Retry envelope lemmas -/

/-- When every attempt the loop can still make fails, the loop burns all
its fuel: one retry-counter increment per unit of fuel, and the final
outcome is the error of the last attempt made. -/
theorem redisRetryAux_allFail (attempt : Nat → Except String Int) (errf : Nat → String) :
    ∀ (fuel s : Nat),
      (∀ i, s ≤ i → i ≤ s + fuel → attempt i = Except.error (errf i)) →
      redisRetryAux attempt (attempt s) (s + 1) fuel =
        (Except.error (errf (s + fuel)), fuel) := by
  intro fuel
  induction fuel with
  | zero =>
    intro s h
    rw [h s le_rfl (by omega)]
    rfl
  | succ fuel ih =>
    intro s h
    rw [h s le_rfl (by omega)]
    simp only [redisRetryAux]
    rw [ih (s + 1) (fun i h1 h2 => h i (by omega) (by omega))]
    have hs : s + 1 + fuel = s + (fuel + 1) := by omega
    rw [hs]

/-- When the attempts before index `k` fail and attempt `k` succeeds, and
`k` retries fit in the fuel, the loop stops at the first success with
exactly `k` retry-counter increments. -/
theorem redisRetryAux_success (attempt : Nat → Except String Int) (errf : Nat → String)
    (v : Int) :
    ∀ (k fuel s : Nat), k ≤ fuel →
      (∀ i, s ≤ i → i < s + k → attempt i = Except.error (errf i)) →
      attempt (s + k) = Except.ok v →
      redisRetryAux attempt (attempt s) (s + 1) fuel = (Except.ok v, k) := by
  intro k
  induction k with
  | zero =>
    intro fuel s _ _ hok
    rw [Nat.add_zero] at hok
    rw [hok]
    cases fuel
    · rfl
    · rfl
  | succ k ih =>
    intro fuel s hkf hfail hok
    obtain ⟨f, rfl⟩ : ∃ f, fuel = f + 1 := ⟨fuel - 1, by omega⟩
    rw [hfail s le_rfl (by omega)]
    simp only [redisRetryAux]
    rw [ih f (s + 1) (by omega) (fun i h1 h2 => hfail i (by omega) (by omega)) (by
      have hs : s + 1 + k = s + (k + 1) := by omega
      rw [hs]; exact hok)]

/-- The full envelope with a non-negative configured retry count `rn`,
always-failing remote: `rn + 1` retries after the initial attempt, final
outcome the last attempt's error. -/
theorem redisRetryLoop_allFail (attempt : Nat → Except String Int) (errf : Nat → String)
    (rn : Nat) (h : ∀ i ≤ rn + 1, attempt i = Except.error (errf i)) :
    redisRetryLoop attempt (rn : Int) = (Except.error (errf (rn + 1)), rn + 1) := by
  unfold redisRetryLoop
  have ht : ((rn : Int) + 1).toNat = rn + 1 := by omega
  rw [ht]
  have hmain := redisRetryAux_allFail attempt errf (rn + 1) 0
    (fun i _ h2 => h i (by omega))
  simpa using hmain

/-- The full envelope, first success at attempt index `k ≤ rn + 1`:
result of attempt `k`, exactly `k` retry increments. -/
theorem redisRetryLoop_success (attempt : Nat → Except String Int) (errf : Nat → String)
    (rn k : Nat) (v : Int) (hk : k ≤ rn + 1)
    (hfail : ∀ i < k, attempt i = Except.error (errf i))
    (hok : attempt k = Except.ok v) :
    redisRetryLoop attempt (rn : Int) = (Except.ok v, k) := by
  unfold redisRetryLoop
  have ht : ((rn : Int) + 1).toNat = rn + 1 := by omega
  rw [ht]
  have hmain := redisRetryAux_success attempt errf v k (rn + 1) 0 hk
    (fun i _ h2 => hfail i (by omega)) (by simpa using hok)
  simpa using hmain

/-- The scard operator under a permanently failing remote: the last error
is returned unchanged (no bytes) after `rn + 1` retry increments. -/
theorem newRedisSCardOperator_allFail (r : Redis) (rn : Nat) (hr : r.retries = (rn : Int))
    (key : String) (value : Bytes) (errf : Nat → String)
    (h : ∀ i ≤ rn + 1, r.client.scard key i = Except.error (errf i)) :
    newRedisSCardOperator r key value = (Except.error (errf (rn + 1)), rn + 1) := by
  unfold newRedisSCardOperator
  rw [hr, redisRetryLoop_allFail _ errf rn h]

/-- The scard operator, first success at attempt `k ≤ rn + 1`: the decimal
encoding of the successful count, after exactly `k` retry increments. -/
theorem newRedisSCardOperator_success (r : Redis) (rn k : Nat) (hr : r.retries = (rn : Int))
    (key : String) (value : Bytes) (errf : Nat → String) (v : Int) (hk : k ≤ rn + 1)
    (hfail : ∀ i < k, r.client.scard key i = Except.error (errf i))
    (hok : r.client.scard key k = Except.ok v) :
    newRedisSCardOperator r key value = (Except.ok (strconvAppendInt v), k) := by
  unfold newRedisSCardOperator
  rw [hr, redisRetryLoop_success _ errf rn k v hk hfail hok]

/-- The sadd operator under a permanently failing remote. -/
theorem newRedisSAddOperator_allFail (r : Redis) (rn : Nat) (hr : r.retries = (rn : Int))
    (key : String) (value : Bytes) (errf : Nat → String)
    (h : ∀ i ≤ rn + 1, r.client.sadd key value i = Except.error (errf i)) :
    newRedisSAddOperator r key value = (Except.error (errf (rn + 1)), rn + 1) := by
  unfold newRedisSAddOperator
  rw [hr, redisRetryLoop_allFail _ errf rn h]

/-- The sadd operator, first success at attempt `k ≤ rn + 1`. -/
theorem newRedisSAddOperator_success (r : Redis) (rn k : Nat) (hr : r.retries = (rn : Int))
    (key : String) (value : Bytes) (errf : Nat → String) (v : Int) (hk : k ≤ rn + 1)
    (hfail : ∀ i < k, r.client.sadd key value i = Except.error (errf i))
    (hok : r.client.sadd key value k = Except.ok v) :
    newRedisSAddOperator r key value = (Except.ok (strconvAppendInt v), k) := by
  unfold newRedisSAddOperator
  rw [hr, redisRetryLoop_success _ errf rn k v hk hfail hok]

/-! ## Claims about the retry envelope -/

/-- C1: the claim says an always-failing invocation of a retry-wrapped
operator with `max_retries = rn` makes exactly `rn + 1` attempts and never
more than `max_retries + 1`. The code's loop condition
`i <= r.conf.Redis.Retries` admits `rn + 1` retry iterations after the
initial attempt: the `redis.retry` counter is incremented `rn + 1` times
and the returned error is the one of attempt index `rn + 1` — the
`(rn + 2)`-th attempt — so the claimed bound is exceeded by one on both
operators. -/
theorem c1_retry_budget_overrun (rn : Nat) :
    newRedisSCardOperator (mkRedis (rn : Int) failingClient) "s1" "v" =
      (Except.error ("fail attempt " ++ toString (rn + 1)), rn + 1) ∧
    newRedisSAddOperator (mkRedis (rn : Int) failingClient) "s1" "v" =
      (Except.error ("fail attempt " ++ toString (rn + 1)), rn + 1) := by
  constructor
  · exact newRedisSCardOperator_allFail _ rn rfl _ _
      (fun i => "fail attempt " ++ toString i) (fun i _ => rfl)
  · exact newRedisSAddOperator_allFail _ rn rfl _ _
      (fun i => "fail attempt " ++ toString i) (fun i _ => rfl)

/-- C2 counterexample: `CloseAsync` is the identity on the processor — no
close signal exists for the retry loop to observe — and with
`max_retries = 0` an always-failing invocation started after `CloseAsync`
still increments the retry counter, i.e. issues a further attempt instead
of abandoning retries. -/
theorem c2_counterexample :
    Redis.CloseAsync (mkRedis 0 failingClient) = mkRedis 0 failingClient ∧
    (applyRedisOperator (Redis.CloseAsync (mkRedis 0 failingClient)) "s1" "v").2 = 1 :=
  ⟨rfl, rfl⟩

/-- C2 amended: `CloseAsync` performs no action at all, so a retry loop is
unaffected by a close request: after `CloseAsync` an always-failing
invocation still performs its full `rn + 1` retries (each preceded by the
full `retry_period` sleep, which is elided here). -/
theorem c2_close_has_no_effect_on_retries (r : Redis) (rn : Nat) (key : String)
    (value : Bytes) :
    Redis.CloseAsync r = r ∧
    (applyRedisOperator (Redis.CloseAsync (mkRedis (rn : Int) failingClient)) key value).2
      = rn + 1 := by
  refine ⟨rfl, ?_⟩
  show (newRedisSCardOperator (mkRedis (rn : Int) failingClient) key value).2 = rn + 1
  rw [newRedisSCardOperator_allFail _ rn rfl key value
    (fun i => "fail attempt " ++ toString i) (fun i _ => rfl)]

/-- C3 counterexample: with a zero timeout — shorter than any positive
close latency — `WaitForClose` still returns nil rather than a timeout
error. -/
theorem c3_counterexample :
    (Redis.WaitForClose (mkRedis 0 failingClient) 0).2 = none :=
  rfl

/-- C3 amended: `WaitForClose` ignores its timeout entirely: for any two
timeouts the result is identical, the returned error is always nil, and
the client resource is closed synchronously. -/
theorem c3_waitforclose_ignores_timeout (r : Redis) (t t2 : Nat) :
    Redis.WaitForClose r t = Redis.WaitForClose r t2 ∧
    (Redis.WaitForClose r t).2 = none ∧
    (Redis.WaitForClose r t).1.client.closed = true :=
  ⟨rfl, rfl, rfl⟩

/-- C4: if the remote fails on the first `k ≤ max_retries` attempts of an
invocation and succeeds on attempt `k + 1` (index `k`), both retry-wrapped
operators return the decimal encoding of the successful result and the
`redis.retry` counter is incremented exactly `k` times. -/
theorem c4_succeeds_after_k_failures (r : Redis) (rn k : Nat)
    (hr : r.retries = (rn : Int)) (hk : k ≤ rn) (key : String) (value : Bytes)
    (errf : Nat → String) (v : Int) :
    ((∀ i < k, r.client.scard key i = Except.error (errf i)) →
      r.client.scard key k = Except.ok v →
      newRedisSCardOperator r key value = (Except.ok (strconvAppendInt v), k)) ∧
    ((∀ i < k, r.client.sadd key value i = Except.error (errf i)) →
      r.client.sadd key value k = Except.ok v →
      newRedisSAddOperator r key value = (Except.ok (strconvAppendInt v), k)) := by
  constructor
  · intro hfail hok
    exact newRedisSCardOperator_success r rn k hr key value errf v (by omega) hfail hok
  · intro hfail hok
    exact newRedisSAddOperator_success r rn k hr key value errf v (by omega) hfail hok

/-- C4 witness: with `max_retries = 3` and a remote failing only on the
first attempt, scard returns "7" and sadd returns "1", each after exactly
one retry increment. -/
theorem c4_witness :
    newRedisSCardOperator (mkRedis 3 flakyClient) "s1" "v" =
      (Except.ok (strconvAppendInt 7), 1) ∧
    newRedisSAddOperator (mkRedis 3 flakyClient) "s1" "v" =
      (Except.ok (strconvAppendInt 1), 1) := by
  constructor
  · exact (c4_succeeds_after_k_failures (mkRedis 3 flakyClient) 3 1 rfl (by omega)
      "s1" "v" (fun _ => "transient") 7).1
      (fun i hi => match i, hi with
        | 0, _ => rfl
        | n + 1, h => absurd h (by omega))
      rfl
  · exact (c4_succeeds_after_k_failures (mkRedis 3 flakyClient) 3 1 rfl (by omega)
      "s1" "v" (fun _ => "transient") 1).2
      (fun i hi => match i, hi with
        | 0, _ => rfl
        | n + 1, h => absurd h (by omega))
      rfl

/-- C5: when every attempt an invocation can make fails, each operator
returns the error produced by the last attempt unchanged, with no result
bytes; when some attempt within the budget succeeds (all earlier ones
failing), it returns the result bytes with no error. -/
theorem c5_last_error_or_success_bytes (r : Redis) (rn : Nat)
    (hr : r.retries = (rn : Int)) (key : String) (value : Bytes)
    (errf : Nat → String) :
    ((∀ i ≤ rn + 1, r.client.scard key i = Except.error (errf i)) →
      newRedisSCardOperator r key value = (Except.error (errf (rn + 1)), rn + 1)) ∧
    (∀ k v, k ≤ rn + 1 → (∀ i < k, r.client.scard key i = Except.error (errf i)) →
      r.client.scard key k = Except.ok v →
      newRedisSCardOperator r key value = (Except.ok (strconvAppendInt v), k)) ∧
    ((∀ i ≤ rn + 1, r.client.sadd key value i = Except.error (errf i)) →
      newRedisSAddOperator r key value = (Except.error (errf (rn + 1)), rn + 1)) ∧
    (∀ k v, k ≤ rn + 1 → (∀ i < k, r.client.sadd key value i = Except.error (errf i)) →
      r.client.sadd key value k = Except.ok v →
      newRedisSAddOperator r key value = (Except.ok (strconvAppendInt v), k)) := by
  refine ⟨?_, ?_, ?_, ?_⟩
  · intro h
    exact newRedisSCardOperator_allFail r rn hr key value errf h
  · intro k v hk hfail hok
    exact newRedisSCardOperator_success r rn k hr key value errf v hk hfail hok
  · intro h
    exact newRedisSAddOperator_allFail r rn hr key value errf h
  · intro k v hk hfail hok
    exact newRedisSAddOperator_success r rn k hr key value errf v hk hfail hok

/-- C5 witness: with `max_retries = 0`, exhaustion against the
per-attempt-labelled failing remote returns the error of the last attempt
(index 1), and against a healthy remote the first attempt's bytes come
back with no retries. -/
theorem c5_witness :
    newRedisSCardOperator (mkRedis 0 failingClient) "s1" "v" =
      (Except.error ("fail attempt " ++ toString 1), 1) ∧
    newRedisSCardOperator (mkRedis 0 okClient) "s1" "v" =
      (Except.ok (strconvAppendInt 4), 0) ∧
    newRedisSAddOperator (mkRedis 0 failingClient) "s1" "v" =
      (Except.error ("fail attempt " ++ toString 1), 1) ∧
    newRedisSAddOperator (mkRedis 0 okClient) "s1" "v" =
      (Except.ok (strconvAppendInt 1), 0) := by
  refine ⟨?_, ?_, ?_, ?_⟩
  · exact (c5_last_error_or_success_bytes (mkRedis 0 failingClient) 0 rfl "s1" "v"
      (fun i => "fail attempt " ++ toString i)).1 (fun i _ => rfl)
  · exact (c5_last_error_or_success_bytes (mkRedis 0 okClient) 0 rfl "s1" "v"
      (fun _ => "")).2.1 0 4 (by omega)
      (fun i hi => absurd hi (Nat.not_lt_zero i)) rfl
  · exact (c5_last_error_or_success_bytes (mkRedis 0 failingClient) 0 rfl "s1" "v"
      (fun i => "fail attempt " ++ toString i)).2.2.1 (fun i _ => rfl)
  · exact (c5_last_error_or_success_bytes (mkRedis 0 okClient) 0 rfl "s1" "v"
      (fun _ => "")).2.2.2 0 1 (by omega)
      (fun i hi => absurd hi (Nat.not_lt_zero i)) rfl

/-! ## Arena and part-store lemmas -/

/-- Extension is reflexive. -/
theorem Arena.Ext.rfl (a : Arena) : a.Ext a :=
  ⟨[], by simp⟩

/-- Extension is transitive. -/
theorem Arena.Ext.trans {a b c : Arena} (h1 : a.Ext b) (h2 : b.Ext c) : a.Ext c := by
  obtain ⟨t1, ht1⟩ := h1
  obtain ⟨t2, ht2⟩ := h2
  exact ⟨t1 ++ t2, by rw [ht2, ht1, List.append_assoc]⟩

/-- Reads of allocated slots are stable under arena extension. -/
theorem slots_getElem_ext {a a2 : Arena} (h : a.Ext a2) {hdl : Nat}
    (hlt : hdl < a.slots.length) : a2.slots[hdl]? = a.slots[hdl]? := by
  obtain ⟨t, ht⟩ := h
  rw [ht, List.getElem?_append_left hlt]

/-- Reads of a well-formed message are stable under arena extension. -/
theorem readPart_ext {a a2 : Arena} {m : Msg} (hwf : MsgWF a m) (h : a.Ext a2)
    (i : Nat) : readPart a2 m i = readPart a m i := by
  unfold readPart
  cases hh : m.handles[i]? with
  | none => rfl
  | some hdl =>
    exact slots_getElem_ext h (hwf hdl (List.getElem?_mem hh))

/-- A well-formed message has a part at every in-range index. -/
theorem readPart_isSome {a : Arena} {m : Msg} (hwf : MsgWF a m) {i : Nat}
    (hi : i < m.handles.length) : ∃ p, readPart a m i = some p := by
  unfold readPart
  rw [List.getElem?_eq_getElem hi]
  have hlt : m.handles[i] < a.slots.length :=
    hwf _ (List.getElem_mem hi)
  exact ⟨_, List.getElem?_eq_getElem hlt⟩

/-- `setPart` only appends to the arena. -/
theorem setPart_arena_ext (a : Arena) (m : Msg) (i : Nat) (p : Part) :
    a.Ext (setPart a m i p).1 :=
  ⟨[p], Eq.refl _⟩

/-- `setPart` preserves the part count. -/
theorem setPart_handles_length (a : Arena) (m : Msg) (i : Nat) (p : Part) :
    (setPart a m i p).2.handles.length = m.handles.length :=
  List.length_set m.handles i a.slots.length

/-- `setPart` preserves well-formedness. -/
theorem setPart_wf {a : Arena} {m : Msg} (hwf : MsgWF a m) (i : Nat) (p : Part) :
    MsgWF (setPart a m i p).1 (setPart a m i p).2 := by
  intro h hmem
  simp only [setPart, List.length_append, List.length_cons, List.length_nil] at hmem ⊢
  rcases List.mem_or_eq_of_mem_set hmem with h1 | h1
  · have := hwf h h1
    omega
  · omega

/-- Reading the part just set returns it. -/
theorem readPart_setPart_self {m : Msg} (a : Arena) {i : Nat} (p : Part)
    (hi : i < m.handles.length) :
    readPart (setPart a m i p).1 (setPart a m i p).2 i = some p := by
  unfold readPart setPart
  simp only
  rw [List.getElem?_set_self (by simpa using hi)]
  simp only [List.getElem?_concat_length]

/-- Reading any other index is unchanged by `setPart`. -/
theorem readPart_setPart_other {a : Arena} {m : Msg} (hwf : MsgWF a m) {i : Nat}
    (p : Part) {j : Nat} (hne : j ≠ i) :
    readPart (setPart a m i p).1 (setPart a m i p).2 j = readPart a m j := by
  unfold readPart setPart
  simp only
  rw [List.getElem?_set_ne (Ne.symm hne)]
  cases hh : m.handles[j]? with
  | none => rfl
  | some hdl =>
    exact slots_getElem_ext ⟨[p], Eq.refl _⟩ (hwf hdl (List.getElem?_mem hh))

/-- When part `i` exists, `flagPart` is `setPart` of the flagged part. -/
theorem flagPart_eq_setPart {a : Arena} {m : Msg} {i : Nat} {p : Part}
    (hp : readPart a m i = some p) :
    flagPart a m i = setPart a m i { p with failed := true } := by
  unfold flagPart
  rw [hp]

/-- `flagPart` only appends to the arena. -/
theorem flagPart_arena_ext (a : Arena) (m : Msg) (i : Nat) :
    a.Ext (flagPart a m i).1 := by
  unfold flagPart
  cases hp : readPart a m i with
  | none => exact Arena.Ext.rfl a
  | some p => exact setPart_arena_ext a m i _

/-- `redisProc` only appends to the arena. -/
theorem redisProc_arena_ext (r : Redis) (i : Nat) (s : ProcState) :
    s.arena.Ext (redisProc r i s).1.arena := by
  cases hp : readPart s.arena s.msg i with
  | none =>
    simp only [redisProc, hp]
    exact Arena.Ext.rfl _
  | some p =>
    rcases hres : applyRedisOperator r (r.keyExpr i (materialize s.arena s.msg)) p.payload
      with ⟨res1, n⟩
    cases res1 with
    | error e =>
      simp only [redisProc, hp, hres]
      exact Arena.Ext.rfl _
    | ok bytes =>
      rcases hsp : setPart s.arena s.msg i { p with payload := bytes } with ⟨a2, m2⟩
      simp only [redisProc, hp, hres, hsp]
      have h0 := setPart_arena_ext s.arena s.msg i { p with payload := bytes }
      rw [hsp] at h0
      exact h0

/-- The whole per-part loop only appends to the arena. -/
theorem iterateParts_arena_ext (r : Redis) :
    ∀ (L : List Nat) (s : ProcState),
      s.arena.Ext (iterateParts (redisProc r) L s).arena := by
  intro L
  induction L with
  | nil =>
    intro s
    exact Arena.Ext.rfl _
  | cons i rest ih =>
    intro s
    rcases hsp : redisProc r i s with ⟨s1, e⟩
    have hstep : s.arena.Ext s1.arena := by
      have h0 := redisProc_arena_ext r i s
      rw [hsp] at h0
      exact h0
    cases e with
    | none =>
      have hred : iterateParts (redisProc r) (i :: rest) s =
          iterateParts (redisProc r) rest s1 := by
        simp only [iterateParts, hsp]
      rw [hred]
      exact Arena.Ext.trans hstep (ih s1)
    | some err =>
      rcases hfp : flagPart s1.arena s1.msg i with ⟨a2, m2⟩
      have hred : iterateParts (redisProc r) (i :: rest) s =
          iterateParts (redisProc r) rest { s1 with arena := a2, msg := m2 } := by
        simp only [iterateParts, hsp, hfp]
      rw [hred]
      have hflag : s1.arena.Ext a2 := by
        have h0 := flagPart_arena_ext s1.arena s1.msg i
        rw [hfp] at h0
        exact h0
      exact Arena.Ext.trans hstep (Arena.Ext.trans hflag (ih _))

/-- Running the per-part loop over duplicate-free, in-range target
indices from any state realises the per-part outcome contract: failures
are isolated to their part (original payload kept, error flag set, one
`error` increment each) and every other target carries its operator's
result bytes. -/
theorem iterateParts_outcome (r : Redis) :
    ∀ (L : List Nat) (s : ProcState), L.Nodup →
      (∀ i ∈ L, i < s.msg.handles.length) → MsgWF s.arena s.msg →
      IterOutcome r s L (iterateParts (redisProc r) L s) := by
  intro L
  induction L with
  | nil =>
    intro s _ _ hwf
    exact ⟨[], fun i hi => absurd hi (List.not_mem_nil i), List.nodup_nil,
      by simp [iterateParts], rfl, hwf, Arena.Ext.rfl _, fun j _ => rfl,
      fun i hi => absurd hi (List.not_mem_nil i)⟩
  | cons i rest ih =>
    intro s hnd hbnd hwf
    have hnotin : i ∉ rest := (List.nodup_cons.mp hnd).1
    have hndr : rest.Nodup := (List.nodup_cons.mp hnd).2
    have hi : i < s.msg.handles.length := hbnd i (List.mem_cons_self i rest)
    obtain ⟨p, hp⟩ := readPart_isSome hwf hi
    rcases hres : applyRedisOperator r (r.keyExpr i (materialize s.arena s.msg)) p.payload
      with ⟨res1, n⟩
    cases res1 with
    | ok bytes =>
      rcases hsp : setPart s.arena s.msg i { p with payload := bytes } with ⟨a2, m2⟩
      have hred : iterateParts (redisProc r) (i :: rest) s =
          iterateParts (redisProc r) rest
            { s with arena := a2, msg := m2, retryIncr := s.retryIncr + n } := by
        simp only [iterateParts, redisProc, hp, hres, hsp]
      set s1 : ProcState :=
        { s with arena := a2, msg := m2, retryIncr := s.retryIncr + n } with hs1
      have hlen1 : s1.msg.handles.length = s.msg.handles.length := by
        have h0 := setPart_handles_length s.arena s.msg i { p with payload := bytes }
        rw [hsp] at h0
        exact h0
      have hwf1 : MsgWF s1.arena s1.msg := by
        have h0 := setPart_wf hwf i { p with payload := bytes }
        rw [hsp] at h0
        exact h0
      have hreadi : readPart s1.arena s1.msg i = some { p with payload := bytes } := by
        have h0 := readPart_setPart_self s.arena { p with payload := bytes } hi
        rw [hsp] at h0
        exact h0
      have hreadother : ∀ j, j ≠ i →
          readPart s1.arena s1.msg j = readPart s.arena s.msg j := by
        intro j hj
        have h0 := readPart_setPart_other hwf { p with payload := bytes } hj
        rw [hsp] at h0
        exact h0
      have hext1 : s.arena.Ext s1.arena := by
        have h0 := setPart_arena_ext s.arena s.msg i { p with payload := bytes }
        rw [hsp] at h0
        exact h0
      obtain ⟨failed, hsub, hfnd, herr, hlen2, hwf2, hext2, hout, hchar⟩ :=
        ih s1 hndr (fun j hj => by rw [hlen1]; exact hbnd j (List.mem_cons_of_mem i hj)) hwf1
      rw [hred]
      refine ⟨failed, ?_, hfnd, ?_, ?_, hwf2, Arena.Ext.trans hext1 hext2, ?_, ?_⟩
      · intro x hx
        exact List.mem_cons_of_mem i (hsub x hx)
      · rw [herr]
      · rw [hlen2, hlen1]
      · intro j hj
        have hji : j ≠ i := fun hji => hj (hji ▸ List.mem_cons_self i rest)
        have hjr : j ∉ rest := fun hjr => hj (List.mem_cons_of_mem i hjr)
        rw [hout j hjr, hreadother j hji]
      · intro x hx
        rcases List.mem_cons.mp hx with hxi | hxr
        · subst hxi
          refine ⟨p, hp, ?_, ?_⟩
          · intro hxf
            exact absurd (hsub x hxf) hnotin
          · intro _
            refine ⟨r.keyExpr x (materialize s.arena s.msg), bytes, n, hres, ?_⟩
            rw [hout x hnotin]
            exact hreadi
        · have hxne : x ≠ i := fun hxe => hnotin (hxe ▸ hxr)
          obtain ⟨p2, hp2, hf1, hf2⟩ := hchar x hxr
          rw [hreadother x hxne] at hp2
          exact ⟨p2, hp2, hf1, hf2⟩
    | error e =>
      have hflag : flagPart s.arena s.msg i =
          setPart s.arena s.msg i { p with failed := true } :=
        flagPart_eq_setPart hp
      rcases hsp : setPart s.arena s.msg i { p with failed := true } with ⟨a2, m2⟩
      have hred : iterateParts (redisProc r) (i :: rest) s =
          iterateParts (redisProc r) rest
            { s with arena := a2, msg := m2, errIncr := s.errIncr + 1, retryIncr := s.retryIncr + n } := by
        simp only [iterateParts, redisProc, hp, hres, hflag, hsp]
      set s1 : ProcState :=
        { s with arena := a2, msg := m2, errIncr := s.errIncr + 1, retryIncr := s.retryIncr + n } with hs1
      have hlen1 : s1.msg.handles.length = s.msg.handles.length := by
        have h0 := setPart_handles_length s.arena s.msg i { p with failed := true }
        rw [hsp] at h0
        exact h0
      have hwf1 : MsgWF s1.arena s1.msg := by
        have h0 := setPart_wf hwf i { p with failed := true }
        rw [hsp] at h0
        exact h0
      have hreadi : readPart s1.arena s1.msg i = some { p with failed := true } := by
        have h0 := readPart_setPart_self s.arena { p with failed := true } hi
        rw [hsp] at h0
        exact h0
      have hreadother : ∀ j, j ≠ i →
          readPart s1.arena s1.msg j = readPart s.arena s.msg j := by
        intro j hj
        have h0 := readPart_setPart_other hwf { p with failed := true } hj
        rw [hsp] at h0
        exact h0
      have hext1 : s.arena.Ext s1.arena := by
        have h0 := setPart_arena_ext s.arena s.msg i { p with failed := true }
        rw [hsp] at h0
        exact h0
      obtain ⟨failed, hsub, hfnd, herr, hlen2, hwf2, hext2, hout, hchar⟩ :=
        ih s1 hndr (fun j hj => by rw [hlen1]; exact hbnd j (List.mem_cons_of_mem i hj)) hwf1
      rw [hred]
      have hinf : i ∉ failed := fun hf => hnotin (hsub i hf)
      refine ⟨i :: failed, ?_, List.nodup_cons.mpr ⟨hinf, hfnd⟩, ?_, ?_, hwf2,
        Arena.Ext.trans hext1 hext2, ?_, ?_⟩
      · intro x hx
        rcases List.mem_cons.mp hx with hxi | hxr
        · exact hxi ▸ List.mem_cons_self i rest
        · exact List.mem_cons_of_mem i (hsub x hxr)
      · rw [herr]
        simp only [List.length_cons]
        omega
      · rw [hlen2, hlen1]
      · intro j hj
        have hji : j ≠ i := fun hji => hj (hji ▸ List.mem_cons_self i rest)
        have hjr : j ∉ rest := fun hjr => hj (List.mem_cons_of_mem i hjr)
        rw [hout j hjr, hreadother j hji]
      · intro x hx
        rcases List.mem_cons.mp hx with hxi | hxr
        · subst hxi
          refine ⟨p, hp, ?_, ?_⟩
          · intro _
            refine ⟨⟨r.keyExpr x (materialize s.arena s.msg), e, n, hres⟩, ?_⟩
            rw [hout x hnotin]
            exact hreadi
          · intro hnx
            exact absurd (List.mem_cons_self x failed) hnx
        · have hxne : x ≠ i := fun hxe => hnotin (hxe ▸ hxr)
          obtain ⟨p2, hp2, hf1, hf2⟩ := hchar x hxr
          rw [hreadother x hxne] at hp2
          refine ⟨p2, hp2, ?_, ?_⟩
          · intro hxf
            rcases List.mem_cons.mp hxf with h1 | h1
            · exact absurd h1 hxne
            · exact hf1 h1
          · intro hxnf
            exact hf2 fun h1 => hxnf (List.mem_cons_of_mem i h1)

/-- C6: with the default all-parts selector, `ProcessMessage` returns
exactly one output message and a nil response whatever the per-part
operator invocations do; each part whose invocation fails keeps its
original payload (error-flagged), contributes exactly one `error` counter
increment, and does not prevent any other part from being processed to
its operator's result bytes. -/
theorem c6_per_part_failure_isolation (r : Redis) (a : Arena) (m : Msg)
    (hparts : r.parts = []) (hwf : MsgWF a m) : ProcessIsolation r a m := by
  have htarget : targetIndices r.parts (duplicate m).handles.length =
      List.range m.handles.length := by
    rw [hparts]
    simp [targetIndices, duplicate]
  obtain ⟨failed, hsub, hfnd, herr, hlen, hwf2, hext, houtside, hchar⟩ :=
    iterateParts_outcome r (List.range m.handles.length)
      ⟨a, duplicate m, 0, 0⟩ (List.nodup_range m.handles.length)
      (fun j hj => List.mem_range.mp hj) hwf
  have hPM : Redis.ProcessMessage r a m =
      { arena := (iterateParts (redisProc r) (List.range m.handles.length)
          ⟨a, duplicate m, 0, 0⟩).arena,
        sent := [(iterateParts (redisProc r) (List.range m.handles.length)
          ⟨a, duplicate m, 0, 0⟩).msg],
        response := none, countIncr := 1,
        errIncr := (iterateParts (redisProc r) (List.range m.handles.length)
          ⟨a, duplicate m, 0, 0⟩).errIncr,
        sentIncr := (iterateParts (redisProc r) (List.range m.handles.length)
          ⟨a, duplicate m, 0, 0⟩).msg.handles.length,
        batchSentIncr := 1,
        retryIncr := (iterateParts (redisProc r) (List.range m.handles.length)
          ⟨a, duplicate m, 0, 0⟩).retryIncr } := by
    simp only [Redis.ProcessMessage, htarget]
  refine ⟨(iterateParts (redisProc r) (List.range m.handles.length)
      ⟨a, duplicate m, 0, 0⟩).msg, failed, ?_, ?_, ?_, ?_, ?_, ?_, ?_, hfnd, ?_, ?_⟩
  · rw [hPM]
  · rw [hPM]
  · rw [hPM]
  · rw [hPM]
  · exact hlen
  · rw [hPM]
    exact hlen
  · intro j hj
    exact List.mem_range.mp (hsub j hj)
  · rw [hPM, herr]
    simp
  · intro i hilt
    obtain ⟨p, hp, h1, h2⟩ := hchar i (List.mem_range.mpr hilt)
    refine ⟨p, hp, ?_, ?_⟩
    · intro hf
      obtain ⟨hex, hread⟩ := h1 hf
      refine ⟨hex, ?_⟩
      rw [hPM]
      exact hread
    · intro hf
      obtain ⟨key, v, nn, hop, hread⟩ := h2 hf
      refine ⟨key, v, nn, hop, ?_⟩
      rw [hPM]
      exact hread

/-- C6 witness: the two-part fixture message processed with the healthy
client satisfies the per-part isolation contract. -/
theorem c6_witness : ProcessIsolation (mkRedis 0 okClient) arenaW msgW :=
  c6_per_part_failure_isolation (mkRedis 0 okClient) arenaW msgW rfl
    (by unfold MsgWF; decide)

/-- C9: `ProcessMessage` works on a copy of its input message — every
part of the original message reads back unchanged afterwards, whatever
the operators did to the copy. -/
theorem c9_input_message_unchanged (r : Redis) (a : Arena) (m : Msg)
    (hwf : MsgWF a m) :
    ∀ i, readPart (Redis.ProcessMessage r a m).arena m i = readPart a m i := by
  intro i
  have hext : a.Ext (Redis.ProcessMessage r a m).arena := by
    show a.Ext (iterateParts (redisProc r)
      (targetIndices r.parts (duplicate m).handles.length) ⟨a, duplicate m, 0, 0⟩).arena
    exact iterateParts_arena_ext r _ _
  exact readPart_ext hwf hext i

/-- C9 witness: the first part of the fixture message is untouched by a
`ProcessMessage` call that rewrites the copy's payloads. -/
theorem c9_witness :
    readPart (Redis.ProcessMessage (mkRedis 0 okClient) arenaW msgW).arena msgW 0 =
      readPart arenaW msgW 0 :=
  c9_input_message_unchanged (mkRedis 0 okClient) arenaW msgW
    (by unfold MsgWF; decide) 0

/-! ## Construction and registry claims -/

/-- Strings have positive length exactly when non-empty (bridges Go's
`len(s) > 0` test to emptiness). -/
theorem string_length_pos_iff (s : String) : 0 < s.length ↔ s ≠ "" := by
  constructor
  · intro hlen hempty
    rw [hempty] at hlen
    exact absurd hlen (by decide)
  · intro hne
    by_contra hnot
    have h0 : s.length = 0 := by omega
    have hdata : s.data = [] := List.length_eq_zero.mp h0
    exact hne (String.ext (by rw [hdata]))

/-- C7: an operator name other than "scard" and "sadd" makes `NewRedis`
fail at construction time — it can never return a processor — while any
successfully constructed processor carries the operator variant that
`getRedisOperator` resolved from the configured name, so no name lookup
is left for processing time. -/
theorem c7_unknown_operator_is_construction_error (env : RedisEnv) (conf : RedisConfig) :
    (conf.operator ≠ "scard" → conf.operator ≠ "sadd" →
      ∀ r : Redis, NewRedis env conf ≠ Except.ok r) ∧
    (∀ r : Redis, NewRedis env conf = Except.ok r →
      getRedisOperator conf.operator = Except.ok r.operator) := by
  constructor
  · intro h1 h2 r hok
    unfold NewRedis at hok
    split at hok
    · exact Except.noConfusion hok
    · split at hok
      · exact Except.noConfusion hok
      · split at hok
        · exact Except.noConfusion hok
        · split at hok
          · exact Except.noConfusion hok
          · rename_i hop
            unfold getRedisOperator at hop
            rw [if_neg h2, if_neg h1] at hop
            exact Except.noConfusion hop
  · intro r hok
    unfold NewRedis at hok
    split at hok
    · exact Except.noConfusion hok
    · split at hok
      · exact Except.noConfusion hok
      · split at hok
        · exact Except.noConfusion hok
        · split at hok
          · exact Except.noConfusion hok
          · rename_i hop
            cases hok
            exact hop

/-- C7 witness: the unrecognised name "hget" cannot construct the default
processor, while the default "scard" configuration resolves its operator
at construction. -/
theorem c7_witness :
    NewRedis envW confBadOp ≠ Except.ok redisDefaultW ∧
    getRedisOperator NewRedisConfig.operator = Except.ok redisDefaultW.operator := by
  constructor
  · exact (c7_unknown_operator_is_construction_error envW confBadOp).1
      (by decide) (by decide) redisDefaultW
  · exact (c7_unknown_operator_is_construction_error envW NewRedisConfig).2
      redisDefaultW rfl

/-- C8: `Construct` on a type name absent from the constructors registry
fails with the invalid-output-type sentinel (no stage), and on a
registered name returns exactly what the registered constructor returns
on the supplied configuration. -/
theorem c8_construct_resolves_registry {α : Type}
    (constructors : List (String × (OutputConfig → Except String α)))
    (conf : OutputConfig) :
    (constructors.lookup conf.type = none →
      Construct constructors conf = Except.error ErrInvalidOutputType) ∧
    (∀ c, constructors.lookup conf.type = some c →
      Construct constructors conf = c conf) := by
  constructor
  · intro h
    unfold Construct
    rw [h]
  · intro c h
    unfold Construct
    rw [h]

/-- C8 witness: the one-entry registry rejects "kafka" with the sentinel
and builds "stdout" with the registered constructor's exact result. -/
theorem c8_witness :
    Construct outputRegistry confKafka = Except.error ErrInvalidOutputType ∧
    Construct outputRegistry confStdout = stdoutConstructor confStdout := by
  constructor
  · exact (c8_construct_resolves_registry outputRegistry confKafka).1 rfl
  · exact (c8_construct_resolves_registry outputRegistry confStdout).2
      stdoutConstructor rfl

/-- C10: an empty `retry_period` string makes `NewRedis` skip duration
parsing entirely — the outcome is the same under any two parsers, and any
successfully constructed processor has a zero retry delay — while a
non-empty string the parser rejects fails construction with the parse
error. -/
theorem c10_empty_retry_period_not_parsed (env : RedisEnv)
    (f g : String → Except String Nat) (conf : RedisConfig) :
    (conf.retryPeriod = "" →
      NewRedis { env with parseDuration := f } conf =
        NewRedis { env with parseDuration := g } conf) ∧
    (conf.retryPeriod = "" → ∀ r, NewRedis env conf = Except.ok r → r.retryPeriod = 0) ∧
    (∀ e, conf.retryPeriod ≠ "" → env.parseDuration conf.retryPeriod = Except.error e →
      NewRedis env conf = Except.error ("failed to parse retry period string: " ++ e)) := by
  refine ⟨?_, ?_, ?_⟩
  · intro h
    have hlen : ¬ 0 < conf.retryPeriod.length := by
      rw [h]
      decide
    unfold NewRedis
    rw [if_neg hlen, if_neg hlen]
  · intro h r hok
    have hlen : ¬ 0 < conf.retryPeriod.length := by
      rw [h]
      decide
    cases hc : env.client with
    | error e =>
      unfold NewRedis at hok
      rw [if_neg hlen, hc] at hok
      exact Except.noConfusion hok
    | ok client =>
      cases hf : env.newField conf.key with
      | error e =>
        unfold NewRedis at hok
        rw [if_neg hlen, hc, hf] at hok
        exact Except.noConfusion hok
      | ok keyExpr =>
        cases hg : getRedisOperator conf.operator with
        | error e =>
          unfold NewRedis at hok
          rw [if_neg hlen, hc, hf, hg] at hok
          exact Except.noConfusion hok
        | ok op =>
          unfold NewRedis at hok
          rw [if_neg hlen, hc, hf, hg] at hok
          cases hok
          rfl
  · intro e hne hparse
    have hlen : 0 < conf.retryPeriod.length := (string_length_pos_iff _).mpr hne
    unfold NewRedis
    rw [if_pos hlen, hparse]

/-- C10 witness: with an empty retry period the construction outcome is
parser-independent and the delay is zero; with an unparsable non-empty
period the construction fails with the parse error. -/
theorem c10_witness :
    (NewRedis { envW with parseDuration := fun _ => Except.error "x" } confEmptyPeriod =
      NewRedis { envW with parseDuration := fun _ => Except.ok 99 } confEmptyPeriod) ∧
    (NewRedis envW confEmptyPeriod = Except.ok { redisDefaultW with retryPeriod := 0 } →
      ({ redisDefaultW with retryPeriod := 0 } : Redis).retryPeriod = 0) ∧
    NewRedis envBadParse confBadPeriod =
      Except.error ("failed to parse retry period string: " ++ "unknown unit") := by
  refine ⟨?_, ?_, ?_⟩
  · exact (c10_empty_retry_period_not_parsed envW (fun _ => Except.error "x")
      (fun _ => Except.ok 99) confEmptyPeriod).1 rfl
  · exact (c10_empty_retry_period_not_parsed envW (fun _ => Except.ok 500)
      (fun _ => Except.ok 500) confEmptyPeriod).2.1 rfl _
  · exact (c10_empty_retry_period_not_parsed envBadParse (fun _ => Except.ok 500)
      (fun _ => Except.ok 500) confBadPeriod).2.2 "unknown unit" (by decide) rfl

end Benthos
